import Mathlib

/-!
Shallow embedding of the event emitter in `src/index.ts`.

The source is a TypeScript class `Emitter` with four public operations
(`on`, `emit`, `off`, `hasListener`), a private `log` helper, and a token
object returned by `on` whose `off` closure captures the event name, the
original listener, the created wrapper, and the `Set` object of
subscribers.

Modelling decisions, each justified by a line of the source:
* A JavaScript value is modelled by `JsVal`.  Only the `typeof` class of a
  value and its identity matter to the emitter, so strings, symbols,
  objects and functions are carried as numeric identities and numbers as
  integers.  `typeof x` tests become matches on the constructor.
* `Map` and `WeakMap` are association lists (`alookup`, `setEntry`,
  `adelete`).  JavaScript maps hold at most one entry per key, which the
  operations preserve; `adelete` removes every entry of the key.
* A JavaScript `Set` is a list in insertion order without duplicates
  (`setAdd` refuses a member already present, as `Set.add` does).  Because
  the token returned by `on` captures the `Set` object itself (line
  `subscribers!.delete(newListener)`), sets live in a heap
  (`Emitter.setHeap`) of numbered set objects and `eventsMap` maps a key to
  a set identity; the token stores that identity.
* `console` logging is modelled as a list of appended `(tag, eventName)`
  entries; timestamps and payload pretty-printing (`getParseData`) are
  incidental formatting and are not modelled, only the fact that an entry
  is emitted.
* Thrown errors (`TypeError`, `Error`) become the `Err` type.  A fallible
  operation returns `Except (Err × Emitter) …`, the state paired with the
  error being the state at the moment of the throw, so that mutations
  preceding a throw would be visible.
* Listener bodies are arbitrary state transformers `Beh`; `emit`'s
  dispatch loop threads the state through them and records which wrapper
  (and its listener) was invoked, mirroring
  `staticListeners.forEach(listener => listener(payload))`.
* The token's `onReady` resolves immediately and touches nothing; no claim
  mentions it and it is not modelled.
-/

set_option autoImplicit false

deriving instance DecidableEq for Except

namespace EmitterSpec

/-- A JavaScript value, as far as the emitter can distinguish values:
its `typeof` class and its identity.  Strings, symbols, objects and
functions are identified by a number; numbers by an integer. -/
inductive JsVal : Type where
  | str (id : Nat)
  | num (n : Int)
  | sym (id : Nat)
  | obj (id : Nat)
  | fnv (id : Nat)
  | boolV (b : Bool)
  | undef
  | nullV
  deriving DecidableEq, Repr

/-- The check of `assertEventName`: `typeof eventName` is one of
`string`, `symbol`, `number`.  `assertEventName` throws a `TypeError`
(the spec's `InvalidKeyType`) exactly when this is `false`. -/
def isEventName : JsVal → Bool
  | .str _ => true
  | .num _ => true
  | .sym _ => true
  | _ => false

/-- The check of `assertListener`: `typeof listener === "function"`.
`assertListener` throws a `TypeError` (the spec's `InvalidListenerType`)
exactly when this is `false`. -/
def isListener : JsVal → Bool
  | .fnv _ => true
  | _ => false

/-- The errors the emitter throws.  `invalidKeyType` and
`invalidListenerType` are the two `TypeError`s of `assertEventName` and
`assertListener`; `unknownKey` is `Error("this event has not been
subscribed")`; `unknownListener` is `Error("this listener has not been
listened")`. -/
inductive Err : Type where
  | invalidKeyType
  | invalidListenerType
  | unknownKey
  | unknownListener
  deriving DecidableEq, Repr

/-- Tag of a diagnostic log entry: the `eventType` string passed to
`this.log`. -/
inductive LogTag : Type where
  | subscribeTag
  | unsubscribeTag
  | emitTag
  | callListenerTag
  deriving DecidableEq, Repr

/-- The wrapper created by `listenerWithLog(eventName, listener)`: a fresh
closure per `on` call, identified by `wid`, remembering the event name it
logs under and the identity of the wrapped listener function. -/
structure Wrapper : Type where
  wid : Nat
  eventName : JsVal
  lid : Nat
  deriving DecidableEq, Repr

/-- Lookup in an association list, the model of `Map.get` /
`WeakMap.get` (and `Map.has` via `Option.isSome`). -/
def alookup {α β : Type} [DecidableEq α] : List (α × β) → α → Option β
  | [], _ => none
  | (a, b) :: m, k => if a = k then some b else alookup m k

/-- `Map.set` / `WeakMap.set`: replace the entry of the key if present,
otherwise append a new entry. -/
def setEntry {α β : Type} [DecidableEq α] : List (α × β) → α → β → List (α × β)
  | [], k, v => [(k, v)]
  | (a, b) :: m, k, v => if a = k then (k, v) :: m else (a, b) :: setEntry m k v

/-- `Map.delete` / `WeakMap.delete`: remove the entry of the key. -/
def adelete {α β : Type} [DecidableEq α] : List (α × β) → α → List (α × β)
  | [], _ => []
  | (a, b) :: m, k => if a = k then adelete m k else (a, b) :: adelete m k

/-- `Set.add`: append in insertion order unless already a member. -/
def setAdd (l : List Wrapper) (w : Wrapper) : List Wrapper :=
  if w ∈ l then l else l ++ [w]

/-- Apply `f` to the set object numbered `sid` in the set heap: the model
of mutating a `Set` through any reference to it. -/
def hupdate : List (Nat × List Wrapper) → Nat → (List Wrapper → List Wrapper) →
    List (Nat × List Wrapper)
  | [], _, _ => []
  | (a, b) :: m, sid, f =>
      if a = sid then (a, f b) :: hupdate m sid f else (a, b) :: hupdate m sid f

/-- The state of an `Emitter` instance.  `setHeap` holds the `Set`
objects themselves, numbered by allocation order; `eventsMap` maps an
event name to the identity of its subscriber set; `listenersMap` is the
`WeakMap` from a listener function's identity to its latest wrapper.
`nextWrapper` and `nextSet` supply fresh identities for wrapper closures
and set objects.  `logs` records the diagnostic entries emitted so far. -/
structure Emitter : Type where
  setHeap : List (Nat × List Wrapper)
  eventsMap : List (JsVal × Nat)
  listenersMap : List (Nat × Wrapper)
  nextWrapper : Nat
  nextSet : Nat
  debug : Bool
  logs : List (LogTag × JsVal)
  deriving DecidableEq, Repr

/-- `new Emitter(options)`: empty maps, `debug = options?.debug ?? true`. -/
def mkEmitter (debugOpt : Option Bool) : Emitter :=
  { setHeap := [], eventsMap := [], listenersMap := [],
    nextWrapper := 0, nextSet := 0, debug := debugOpt.getD true, logs := [] }

namespace Emitter

/-- `this.log(eventType, eventName, …)`: appends one diagnostic entry.
The source formats a timestamp and pretty-prints the payload; it never
consults `this.debug`. -/
def log (s : Emitter) (tag : LogTag) (eventName : JsVal) : Emitter :=
  { s with logs := s.logs ++ [(tag, eventName)] }

@[simp] theorem log_setHeap (s : Emitter) (tag : LogTag) (n : JsVal) :
    (s.log tag n).setHeap = s.setHeap := rfl

@[simp] theorem log_eventsMap (s : Emitter) (tag : LogTag) (n : JsVal) :
    (s.log tag n).eventsMap = s.eventsMap := rfl

@[simp] theorem log_listenersMap (s : Emitter) (tag : LogTag) (n : JsVal) :
    (s.log tag n).listenersMap = s.listenersMap := rfl

/-- `this.getSubscribers(eventName)`: `undefined` when `eventsMap` lacks
the key, otherwise the stored set — here, its identity in the heap. -/
def getSubscribers (s : Emitter) (eventName : JsVal) : Option Nat :=
  alookup s.eventsMap eventName

/-- The elements, in insertion order, of the subscriber set of a key
(empty when the key has no set): the list `[...listeners]` that `emit`
snapshots. -/
def subsList (s : Emitter) (eventName : JsVal) : List Wrapper :=
  ((alookup s.eventsMap eventName).bind (fun sid => alookup s.setHeap sid)).getD []

/-- The token object returned by `on`: its `off` closure captures the
event name, the listener, the wrapper `newListener`, and the identity of
the `subscribers` set object. -/
structure Token : Type where
  eventName : JsVal
  lid : Nat
  w : Wrapper
  sid : Nat
  deriving DecidableEq, Repr

/-- `on(eventName, listener)`.  Asserts only the listener (the source
does not call `assertEventName` here); fetches or allocates the
subscriber set; creates a fresh wrapper; records the listener→wrapper
association (overwriting any prior one); adds the wrapper to the set;
logs; returns the token. -/
def on' (s : Emitter) (eventName listener : JsVal) :
    Except (Err × Emitter) (Emitter × Token) :=
  match listener with
  | .fnv lid =>
    let p : Emitter × Nat :=
      match alookup s.eventsMap eventName with
      | some sid => (s, sid)
      | none =>
          let sid := s.nextSet
          ({ s with setHeap := s.setHeap ++ [(sid, [])],
                    eventsMap := setEntry s.eventsMap eventName sid,
                    nextSet := sid + 1 }, sid)
    let s1 := p.1
    let sid := p.2
    let w : Wrapper := ⟨s1.nextWrapper, eventName, lid⟩
    let s2 : Emitter :=
      { s1 with listenersMap := setEntry s1.listenersMap lid w,
                setHeap := hupdate s1.setHeap sid (fun es => setAdd es w),
                nextWrapper := s1.nextWrapper + 1 }
    let s3 := s2.log .subscribeTag eventName
    .ok (s3, ⟨eventName, lid, w, sid⟩)
  | _ => .error (.invalidListenerType, s)

/-- `hasListener(eventName, listener)`: asserts the listener, then the
event name, then answers `this.listenersMap.has(listener)` — the event
name plays no part in the answer. -/
def hasListener (s : Emitter) (eventName listener : JsVal) : Except Err Bool :=
  match listener with
  | .fnv lid =>
    if isEventName eventName then .ok ((alookup s.listenersMap lid).isSome)
    else .error .invalidKeyType
  | _ => .error .invalidListenerType

/-- The `off` closure of the token returned by `on`: if
`hasListener(eventName, listener)` holds, delete the captured wrapper
from the captured set object, delete the listener's association, log, and
return `true`; otherwise return `false`.  It never removes the emptied
key from `eventsMap`. -/
def tokenOff (s : Emitter) (t : Token) : Except (Err × Emitter) (Emitter × Bool) :=
  match s.hasListener t.eventName (.fnv t.lid) with
  | .error e => .error (e, s)
  | .ok true =>
      let s1 : Emitter :=
        { s with setHeap := hupdate s.setHeap t.sid (fun es => es.erase t.w),
                 listenersMap := adelete s.listenersMap t.lid }
      let s2 := s1.log .unsubscribeTag t.eventName
      .ok (s2, true)
  | .ok false => .ok (s, false)

/-- A listener body: given the listener's identity and the payload, an
arbitrary transformation of the emitter state (a listener may call back
into the emitter). -/
def Beh : Type := Nat → JsVal → Emitter → Emitter

/-- The dispatch loop of `emit`:
`staticListeners.forEach(listener => listener(payload))`.  Each wrapper
runs the underlying listener body, then logs `call-listener` under the
event name the wrapper captured.  Returns the final state and the trace
of invoked `(wrapper, listener)` identities in order. -/
def dispatch (beh : Beh) (payload : JsVal) :
    List Wrapper → Emitter → Emitter × List (Nat × Nat)
  | [], s => (s, [])
  | w :: ws, s =>
      let s1 := (beh w.lid payload s).log .callListenerTag w.eventName
      let r := dispatch beh payload ws s1
      (r.1, (w.wid, w.lid) :: r.2)

/-- `emit(eventName, payload)`: asserts the event name, logs `emit`,
snapshots `[...(getSubscribers(eventName) ?? new Set())]`, and invokes
each wrapper of the snapshot. -/
def emit (beh : Beh) (s : Emitter) (eventName payload : JsVal) :
    Except (Err × Emitter) (Emitter × List (Nat × Nat)) :=
  if isEventName eventName then
    let s1 := s.log .emitTag eventName
    let snap := s1.subsList eventName
    .ok (dispatch beh payload snap s1)
  else .error (.invalidKeyType, s)

/-- The trace of an `emit` call: which `(wrapper, listener)` pairs were
invoked, in order; `none` when `emit` throws. -/
def emitTrace (beh : Beh) (s : Emitter) (eventName payload : JsVal) :
    Option (List (Nat × Nat)) :=
  (emit beh s eventName payload).toOption.map Prod.snd

/-- The `(wrapper, listener)` identity pairs of a list of wrappers: the
invocation record a dispatch over these wrappers produces. -/
def wlPairs (ws : List Wrapper) : List (Nat × Nat) :=
  ws.map (fun w => (w.wid, w.lid))

/-- `off(eventName, listener)`: asserts the listener, then the event
name; throws `unknownKey` when `eventsMap` lacks the key and
`unknownListener` when `listenersMap` lacks the listener; otherwise
deletes the association and the associated wrapper from the key's set,
removes the key when its set became empty, logs, and returns `true`. -/
def off (s : Emitter) (eventName listener : JsVal) :
    Except (Err × Emitter) (Emitter × Bool) :=
  match listener with
  | .fnv lid =>
    if isEventName eventName then
      match alookup s.eventsMap eventName with
      | none => .error (.unknownKey, s)
      | some sid =>
          match alookup s.listenersMap lid with
          | none => .error (.unknownListener, s)
          | some w =>
              let s1 : Emitter :=
                match alookup s.setHeap sid with
                | some elems =>
                    let s' : Emitter :=
                      { s with listenersMap := adelete s.listenersMap lid,
                               setHeap := hupdate s.setHeap sid (fun es => es.erase w) }
                    if (elems.erase w).isEmpty then
                      { s' with eventsMap := adelete s'.eventsMap eventName }
                    else s'
                | none => s
              let s2 := s1.log .unsubscribeTag eventName
              .ok (s2, true)
    else .error (.invalidKeyType, s)
  | _ => .error (.invalidListenerType, s)

end Emitter

/-- The key mapping is backed by the heap: every key's set identity has a
set object.  Every state reachable from `mkEmitter` satisfies this. -/
def heapWF (s : Emitter) : Prop :=
  ∀ e ∈ s.eventsMap, (alookup s.setHeap e.2).isSome

instance (s : Emitter) : Decidable (heapWF s) := by
  unfold heapWF; infer_instance

end EmitterSpec

namespace EmitterSpec

/-! ### Association-list and heap lemmas -/

@[simp] theorem alookup_nil {α β : Type} [DecidableEq α] (k : α) :
    alookup ([] : List (α × β)) k = none := rfl

@[simp] theorem alookup_cons {α β : Type} [DecidableEq α] (a : α) (b : β)
    (m : List (α × β)) (k : α) :
    alookup ((a, b) :: m) k = if a = k then some b else alookup m k := rfl

theorem alookup_mem {α β : Type} [DecidableEq α] {m : List (α × β)} {k : α} {v : β}
    (h : alookup m k = some v) : (k, v) ∈ m := by
  induction m with
  | nil => simp [alookup] at h
  | cons e m ih =>
      obtain ⟨a, b⟩ := e
      by_cases hak : a = k
      · subst hak
        simp [alookup] at h
        subst h
        exact List.mem_cons_self _ _
      · simp [alookup, hak] at h
        exact List.mem_cons_of_mem _ (ih h)

theorem alookup_setEntry_self {α β : Type} [DecidableEq α] (m : List (α × β)) (k : α) (v : β) :
    alookup (setEntry m k v) k = some v := by
  induction m with
  | nil => simp [setEntry, alookup]
  | cons e m ih =>
      obtain ⟨a, b⟩ := e
      by_cases hak : a = k
      · subst hak; simp [setEntry, alookup]
      · simp [setEntry, alookup, hak, ih]

theorem alookup_setEntry_ne {α β : Type} [DecidableEq α] (m : List (α × β)) {a k : α} (v : β)
    (hak : a ≠ k) : alookup (setEntry m k v) a = alookup m a := by
  induction m with
  | nil => simp [setEntry, alookup, Ne.symm hak]
  | cons e m ih =>
      obtain ⟨x, y⟩ := e
      by_cases hxk : x = k
      · subst hxk; simp [setEntry, alookup, Ne.symm hak]
      · simp [setEntry, alookup, hxk, ih]

theorem alookup_adelete_self {α β : Type} [DecidableEq α] (m : List (α × β)) (k : α) :
    alookup (adelete m k) k = none := by
  induction m with
  | nil => simp [adelete]
  | cons e m ih =>
      obtain ⟨a, b⟩ := e
      by_cases hak : a = k
      · subst hak; simp [adelete, ih]
      · simp [adelete, alookup, hak, ih]

theorem alookup_adelete_ne {α β : Type} [DecidableEq α] (m : List (α × β)) {a k : α}
    (hak : a ≠ k) : alookup (adelete m k) a = alookup m a := by
  induction m with
  | nil => simp [adelete]
  | cons e m ih =>
      obtain ⟨x, y⟩ := e
      by_cases hxk : x = k
      · subst hxk; simp [adelete, alookup, Ne.symm hak, ih]
      · simp [adelete, alookup, hxk, ih]

theorem alookup_hupdate_self (h : List (Nat × List Wrapper)) (sid : Nat)
    (f : List Wrapper → List Wrapper) :
    alookup (hupdate h sid f) sid = (alookup h sid).map f := by
  induction h with
  | nil => simp [hupdate]
  | cons e m ih =>
      obtain ⟨a, b⟩ := e
      by_cases has : a = sid
      · subst has
        simp [hupdate, alookup]
      · simp [hupdate, alookup, has, ih]

theorem alookup_append_single {α β : Type} [DecidableEq α] (m : List (α × β)) (k : α) (v : β) :
    alookup (m ++ [(k, v)]) k = some ((alookup m k).getD v) := by
  induction m with
  | nil => simp [alookup]
  | cons e m ih =>
      obtain ⟨a, b⟩ := e
      by_cases hak : a = k
      · subst hak; simp [alookup]
      · simp [alookup, hak, ih]

theorem setAdd_mem (l : List Wrapper) (w : Wrapper) : w ∈ setAdd l w := by
  unfold setAdd
  split
  · assumption
  · exact List.mem_append_right _ (List.mem_singleton.mpr rfl)

theorem dispatch_snd (beh : Emitter.Beh) (payload : JsVal) :
    ∀ (ws : List Wrapper) (s : Emitter),
      (Emitter.dispatch beh payload ws s).2 = ws.map (fun w => (w.wid, w.lid))
  | [], _ => rfl
  | w :: ws, s => by
      simp [Emitter.dispatch, dispatch_snd beh payload ws]

@[simp] theorem subsList_log (s : Emitter) (tag : LogTag) (n k : JsVal) :
    (Emitter.log s tag n).subsList k = s.subsList k := rfl

/-! ### Claim theorems: key validation on subscribe (C3), debug flag (C8),
atomicity of `off` on error (C10), empty-set pruning (C4) -/

/-- C3, counterexample: `on` (the spec's `subscribe`) called with an
object key — not a string, integer, or symbol — and a callable listener
does not fail with `InvalidKeyType`; it succeeds and leaves a
registration for that key behind. -/
theorem subscribe_invalid_key_not_rejected :
    isEventName (.obj 0) = false ∧
    Emitter.on' (mkEmitter none) (.obj 0) (.fnv 0) =
      .ok (⟨[(0, [⟨0, .obj 0, 0⟩])], [(.obj 0, 0)], [(0, ⟨0, .obj 0, 0⟩)], 1, 1, true,
            [(.subscribeTag, .obj 0)]⟩,
           ⟨.obj 0, 0, ⟨0, .obj 0, 0⟩, 0⟩) := by decide

/-- C3, amended: `on` does not validate the key's type.  For every key
that is not a string, integer, or symbol and every callable listener,
`on` succeeds without raising any error and adds a registration for the
listener under that key. -/
theorem subscribe_accepts_invalid_key (s : Emitter) (k : JsVal) (lid : Nat)
    (_hk : isEventName k = false) (hwf : heapWF s) :
    ∃ s2 t, Emitter.on' s k (.fnv lid) = .ok (s2, t) ∧
      (⟨s.nextWrapper, k, lid⟩ : Wrapper) ∈ s2.subsList k := by
  unfold Emitter.on'
  cases halk : alookup s.eventsMap k with
  | none =>
      refine ⟨_, _, rfl, ?_⟩
      simp only [Emitter.subsList, Emitter.log_setHeap, Emitter.log_eventsMap,
        alookup_setEntry_self, Option.some_bind, alookup_hupdate_self,
        alookup_append_single, Option.map_some', Option.getD_some]
      exact setAdd_mem _ _
  | some sid =>
      refine ⟨_, _, rfl, ?_⟩
      obtain ⟨es, hes⟩ := Option.isSome_iff_exists.mp (hwf _ (alookup_mem halk))
      simp only [Emitter.subsList, Emitter.log_setHeap, Emitter.log_eventsMap, halk,
        Option.some_bind, alookup_hupdate_self, hes, Option.map_some', Option.getD_some]
      exact setAdd_mem _ _

/-- C3, witness for the amended theorem at the object key `obj 0` and the
listener `fnv 0`, starting from a fresh emitter. -/
theorem subscribe_accepts_invalid_key_witness :
    (isEventName (.obj 0) = false ∧ heapWF (mkEmitter none)) ∧
    (∃ s2 t, Emitter.on' (mkEmitter none) (.obj 0) (.fnv 0) = .ok (s2, t) ∧
      (⟨(mkEmitter none).nextWrapper, .obj 0, 0⟩ : Wrapper) ∈ s2.subsList (.obj 0)) :=
  ⟨⟨by decide, by decide⟩,
   subscribe_accepts_invalid_key (mkEmitter none) (.obj 0) 0 (by decide) (by decide)⟩

/-- C8, code bug: an emitter constructed with `debug: false` still emits
a diagnostic log entry on subscribe — the constructor stores the flag but
`log` never consults it. -/
theorem debug_false_still_logs :
    (mkEmitter (some false)).debug = false ∧
    Emitter.on' (mkEmitter (some false)) (.str 0) (.fnv 0) =
      .ok (⟨[(0, [⟨0, .str 0, 0⟩])], [(.str 0, 0)], [(0, ⟨0, .str 0, 0⟩)], 1, 1, false,
            [(.subscribeTag, .str 0)]⟩,
           ⟨.str 0, 0, ⟨0, .str 0, 0⟩, 0⟩) := by decide

/-- C10: whenever `off` throws any of its four errors, the key mapping
and the auxiliary listener mapping are exactly as before the call (the
state carried by the error is the state at the throw). -/
theorem off_error_leaves_state_unchanged (s : Emitter) (k l : JsVal) (e : Err) (s2 : Emitter)
    (h : Emitter.off s k l = .error (e, s2)) :
    s2.eventsMap = s.eventsMap ∧ s2.listenersMap = s.listenersMap := by
  cases l <;> simp only [Emitter.off] at h
  case fnv lid =>
    split at h
    · split at h
      · injection h with h1
        injection h1 with he hs
        subst hs
        exact ⟨rfl, rfl⟩
      · split at h
        · injection h with h1
          injection h1 with he hs
          subst hs
          exact ⟨rfl, rfl⟩
        · exact Except.noConfusion h
    · injection h with h1
      injection h1 with he hs
      subst hs
      exact ⟨rfl, rfl⟩
  all_goals
    injection h with h1
  all_goals
    injection h1 with he hs
  all_goals
    subst hs
  all_goals
    exact ⟨rfl, rfl⟩

/-- C10, witness: `off` on a fresh emitter throws `unknownKey` and the
maps are unchanged. -/
theorem off_error_leaves_state_unchanged_witness :
    Emitter.off (mkEmitter none) (.str 0) (.fnv 0) = .error (.unknownKey, mkEmitter none) ∧
    ((mkEmitter none).eventsMap = (mkEmitter none).eventsMap ∧
      (mkEmitter none).listenersMap = (mkEmitter none).listenersMap) :=
  ⟨by decide,
   off_error_leaves_state_unchanged (mkEmitter none) (.str 0) (.fnv 0) .unknownKey
     (mkEmitter none) (by decide)⟩

/-- C4, counterexample: subscribing and then unsubscribing through the
token leaves the key mapped to a set that is now empty — the token's
`off` closure never prunes `eventsMap`.  The state below is reachable
from a fresh emitter by `on` followed by the token's `off`. -/
theorem token_unsubscribe_leaves_empty_set :
    Emitter.on' (mkEmitter none) (.str 0) (.fnv 0) =
      .ok (⟨[(0, [⟨0, .str 0, 0⟩])], [(.str 0, 0)], [(0, ⟨0, .str 0, 0⟩)], 1, 1, true,
            [(.subscribeTag, .str 0)]⟩,
           ⟨.str 0, 0, ⟨0, .str 0, 0⟩, 0⟩) ∧
    Emitter.tokenOff
        ⟨[(0, [⟨0, .str 0, 0⟩])], [(.str 0, 0)], [(0, ⟨0, .str 0, 0⟩)], 1, 1, true,
          [(.subscribeTag, .str 0)]⟩
        ⟨.str 0, 0, ⟨0, .str 0, 0⟩, 0⟩ =
      .ok (⟨[(0, [])], [(.str 0, 0)], [], 1, 1, true,
            [(.subscribeTag, .str 0), (.unsubscribeTag, .str 0)]⟩, true) ∧
    alookup ([(.str 0, 0)] : List (JsVal × Nat)) (.str 0) = some 0 ∧
    alookup ([(0, ([] : List Wrapper))]) 0 = some [] := by decide

theorem not_mem_erase_self_of_nodup {α : Type} [DecidableEq α] {l : List α} {a : α}
    (h : l.Nodup) : a ∉ l.erase a := by
  have h1 : l.count a ≤ 1 := List.nodup_iff_count_le_one.mp h a
  have h2 : (l.erase a).count a = l.count a - 1 := List.count_erase_self a l
  have h3 : (l.erase a).count a = 0 := by omega
  exact List.count_eq_zero.mp h3

theorem on_fn_listenersMap {s : Emitter} {k : JsVal} {lid : Nat} {s2 : Emitter}
    {t : Emitter.Token} (h : Emitter.on' s k (.fnv lid) = .ok (s2, t)) :
    s2.listenersMap = setEntry s.listenersMap lid ⟨s.nextWrapper, k, lid⟩ := by
  unfold Emitter.on' at h
  cases halk : alookup s.eventsMap k with
  | none =>
      rw [halk] at h
      injection h with h1
      injection h1 with hs ht
      subst hs
      rfl
  | some sid =>
      rw [halk] at h
      injection h with h1
      injection h1 with hs ht
      subst hs
      rfl

/-- C4, amended theorem: the direct `off` path does prune — whenever a
successful `off` empties the key's registration set, the key entry is
removed from `eventsMap`.  (The token path does not prune, as
`token_unsubscribe_leaves_empty_set` shows.) -/
theorem direct_off_prunes_emptied_key (s : Emitter) (k : JsVal) (lid sid : Nat)
    (elems : List Wrapper) (w : Wrapper)
    (hk : isEventName k = true)
    (hev : alookup s.eventsMap k = some sid)
    (hlis : alookup s.listenersMap lid = some w)
    (hheap : alookup s.setHeap sid = some elems)
    (hemp : (elems.erase w).isEmpty = true) :
    ∃ s2, Emitter.off s k (.fnv lid) = .ok (s2, true) ∧
      alookup s2.eventsMap k = none := by
  simp only [Emitter.off, hk, hev, hlis, hheap, hemp, if_true]
  refine ⟨_, rfl, ?_⟩
  simp [alookup_adelete_self]

/-- C4, witness for the amended theorem: removing the sole listener of a
key via `off` removes the key entry. -/
theorem direct_off_prunes_emptied_key_witness :
    (isEventName (.str 0) = true ∧
      alookup ([(.str 0, 0)] : List (JsVal × Nat)) (.str 0) = some 0 ∧
      alookup ([(0, ⟨0, .str 0, 0⟩)] : List (Nat × Wrapper)) 0 = some ⟨0, .str 0, 0⟩ ∧
      alookup ([(0, [⟨0, .str 0, 0⟩])] : List (Nat × List Wrapper)) 0 =
        some [⟨0, .str 0, 0⟩] ∧
      (([⟨0, .str 0, 0⟩] : List Wrapper).erase ⟨0, .str 0, 0⟩).isEmpty = true) ∧
    (∃ s2, Emitter.off
        ⟨[(0, [⟨0, .str 0, 0⟩])], [(.str 0, 0)], [(0, ⟨0, .str 0, 0⟩)], 1, 1, true,
          [(.subscribeTag, .str 0)]⟩ (.str 0) (.fnv 0) = .ok (s2, true) ∧
      alookup s2.eventsMap (.str 0) = none) :=
  ⟨⟨by decide, by decide, by decide, by decide, by decide⟩,
   direct_off_prunes_emptied_key
     ⟨[(0, [⟨0, .str 0, 0⟩])], [(.str 0, 0)], [(0, ⟨0, .str 0, 0⟩)], 1, 1, true,
       [(.subscribeTag, .str 0)]⟩
     (.str 0) 0 0 [⟨0, .str 0, 0⟩] ⟨0, .str 0, 0⟩
     (by decide) (by decide) (by decide) (by decide) (by decide)⟩

/-- C5: for a valid key and a callable listener, `off` throws
`unknownKey` when the key has no registration set, throws
`unknownListener` when the listener has no recorded wrapper association,
and otherwise returns `true` having removed the auxiliary association
and removed the associated wrapper from the key's registration set. -/
theorem off_contract (s : Emitter) (k : JsVal) (lid : Nat)
    (hk : isEventName k = true) :
    (alookup s.eventsMap k = none →
      Emitter.off s k (.fnv lid) = .error (.unknownKey, s)) ∧
    (∀ sid, alookup s.eventsMap k = some sid →
      alookup s.listenersMap lid = none →
      Emitter.off s k (.fnv lid) = .error (.unknownListener, s)) ∧
    (∀ sid elems w, alookup s.eventsMap k = some sid →
      alookup s.setHeap sid = some elems →
      alookup s.listenersMap lid = some w → elems.Nodup →
      ∃ s2, Emitter.off s k (.fnv lid) = .ok (s2, true) ∧
        alookup s2.listenersMap lid = none ∧ w ∉ s2.subsList k) := by
  refine ⟨?_, ?_, ?_⟩
  · intro hev
    simp [Emitter.off, hk, hev]
  · intro sid hev hlis
    simp [Emitter.off, hk, hev, hlis]
  · intro sid elems w hev hheap hlis hnd
    simp only [Emitter.off, hk, hev, hheap, hlis, if_true]
    by_cases hemp : (elems.erase w).isEmpty = true
    · rw [if_pos hemp]
      refine ⟨_, rfl, ?_, ?_⟩
      · simp [alookup_adelete_self]
      · simp [Emitter.subsList, alookup_adelete_self]
    · rw [if_neg hemp]
      refine ⟨_, rfl, ?_, ?_⟩
      · simp [alookup_adelete_self]
      · simp only [Emitter.subsList, Emitter.log_setHeap, Emitter.log_eventsMap, hev,
          Option.some_bind, alookup_hupdate_self, hheap, Option.map_some', Option.getD_some]
        exact not_mem_erase_self_of_nodup hnd

/-- C5, witness: in the one-listener state the three cases are
exercised at the success case; `off` removes association and wrapper. -/
theorem off_contract_witness :
    isEventName (.str 0) = true ∧
    ((alookup ([(.str 0, 0)] : List (JsVal × Nat)) (.str 0) = none →
      Emitter.off
        ⟨[(0, [⟨0, .str 0, 0⟩])], [(.str 0, 0)], [(0, ⟨0, .str 0, 0⟩)], 1, 1, true, []⟩
        (.str 0) (.fnv 0) =
        .error (.unknownKey,
          ⟨[(0, [⟨0, .str 0, 0⟩])], [(.str 0, 0)], [(0, ⟨0, .str 0, 0⟩)], 1, 1, true, []⟩)) ∧
     (∀ sid, alookup ([(.str 0, 0)] : List (JsVal × Nat)) (.str 0) = some sid →
      alookup ([(0, ⟨0, .str 0, 0⟩)] : List (Nat × Wrapper)) 0 = none →
      Emitter.off
        ⟨[(0, [⟨0, .str 0, 0⟩])], [(.str 0, 0)], [(0, ⟨0, .str 0, 0⟩)], 1, 1, true, []⟩
        (.str 0) (.fnv 0) =
        .error (.unknownListener,
          ⟨[(0, [⟨0, .str 0, 0⟩])], [(.str 0, 0)], [(0, ⟨0, .str 0, 0⟩)], 1, 1, true, []⟩)) ∧
     (∀ sid elems w, alookup ([(.str 0, 0)] : List (JsVal × Nat)) (.str 0) = some sid →
      alookup ([(0, [⟨0, .str 0, 0⟩])] : List (Nat × List Wrapper)) sid = some elems →
      alookup ([(0, ⟨0, .str 0, 0⟩)] : List (Nat × Wrapper)) 0 = some w → elems.Nodup →
      ∃ s2, Emitter.off
          ⟨[(0, [⟨0, .str 0, 0⟩])], [(.str 0, 0)], [(0, ⟨0, .str 0, 0⟩)], 1, 1, true, []⟩
          (.str 0) (.fnv 0) = .ok (s2, true) ∧
        alookup s2.listenersMap 0 = none ∧ w ∉ s2.subsList (.str 0))) :=
  ⟨by decide,
   off_contract
     ⟨[(0, [⟨0, .str 0, 0⟩])], [(.str 0, 0)], [(0, ⟨0, .str 0, 0⟩)], 1, 1, true, []⟩
     (.str 0) 0 (by decide)⟩

/-- C6: `hasListener` answers the auxiliary listener map alone — for a
valid key it returns exactly whether the listener has a recorded wrapper
association; its answer is independent of the key; and after subscribing
a listener under one key, `hasListener` answers `true` under every valid
key. -/
theorem hasListener_ignores_key (s : Emitter) (k k2 : JsVal) (lid : Nat)
    (hk : isEventName k = true) (hk2 : isEventName k2 = true) :
    Emitter.hasListener s k (.fnv lid) = .ok ((alookup s.listenersMap lid).isSome) ∧
    Emitter.hasListener s k (.fnv lid) = Emitter.hasListener s k2 (.fnv lid) ∧
    (∀ s2 t, Emitter.on' s k (.fnv lid) = .ok (s2, t) →
      Emitter.hasListener s2 k2 (.fnv lid) = .ok true) := by
  refine ⟨?_, ?_, ?_⟩
  · simp [Emitter.hasListener, hk]
  · simp [Emitter.hasListener, hk, hk2]
  · intro s2 t h
    have hl := on_fn_listenersMap h
    simp [Emitter.hasListener, hk2, hl, alookup_setEntry_self]

/-- C6, witness at a fresh emitter with keys of two different types. -/
theorem hasListener_ignores_key_witness :
    (isEventName (.str 0) = true ∧ isEventName (.sym 5) = true) ∧
    (Emitter.hasListener (mkEmitter none) (.str 0) (.fnv 0) =
      .ok ((alookup (mkEmitter none).listenersMap 0).isSome) ∧
     Emitter.hasListener (mkEmitter none) (.str 0) (.fnv 0) =
      Emitter.hasListener (mkEmitter none) (.sym 5) (.fnv 0) ∧
     (∀ s2 t, Emitter.on' (mkEmitter none) (.str 0) (.fnv 0) = .ok (s2, t) →
      Emitter.hasListener s2 (.sym 5) (.fnv 0) = .ok true)) :=
  ⟨⟨by decide, by decide⟩,
   hasListener_ignores_key (mkEmitter none) (.str 0) (.sym 5) 0 (by decide) (by decide)⟩

/-! ### Claim theorems: dispatch (C1, C2) -/

theorem count_one_of_mem_nodup {α : Type} [BEq α] [LawfulBEq α] {l : List α} {a : α}
    (hnd : l.Nodup) (h : a ∈ l) : l.count a = 1 := by
  induction l with
  | nil => simp at h
  | cons b l ih =>
      rw [List.count_cons]
      rcases List.nodup_cons.mp hnd with ⟨hb, hl⟩
      rcases List.mem_cons.mp h with rfl | hal
      · rw [List.count_eq_zero.mpr hb]
        simp
      · rw [ih hl hal]
        have hba : ¬ (a == b) = true := by
          intro hba
          exact hb (eq_of_beq hba ▸ hal)
        have hne : ¬ b = a := by
          intro hba2
          exact hb (hba2 ▸ hal)
        simp [hba, hne]

theorem emit_ok_shape (beh : Emitter.Beh) (s : Emitter) (k p : JsVal)
    (hk : isEventName k = true) :
    Emitter.emit beh s k p =
      .ok ((Emitter.dispatch beh p (s.subsList k) (s.log .emitTag k)).1,
           Emitter.wlPairs (s.subsList k)) := by
  simp only [Emitter.emit, hk, if_true, subsList_log, Emitter.wlPairs]
  rw [← dispatch_snd beh p (s.subsList k) (s.log .emitTag k)]

theorem emitTrace_eq_wlPairs (beh : Emitter.Beh) (s : Emitter) (k p : JsVal)
    (hk : isEventName k = true) :
    Emitter.emitTrace beh s k p = some (Emitter.wlPairs (s.subsList k)) := by
  rw [Emitter.emitTrace, emit_ok_shape beh s k p hk]
  rfl

/-- C1: for every valid key, `emit` succeeds (no error, also with zero
listeners) and invokes exactly the wrappers registered under the key at
the moment of the call, in registration order; when the key has no
registrations nothing is invoked; and when the registered wrappers are
pairwise distinct (as they always are, being fresh closures) each is
invoked exactly once. -/
theorem emit_invokes_snapshot_once_in_order (beh : Emitter.Beh) (s : Emitter)
    (k p : JsVal) (hk : isEventName k = true) :
    (∃ s2, Emitter.emit beh s k p = .ok (s2, Emitter.wlPairs (s.subsList k))) ∧
    (s.subsList k = [] → Emitter.emitTrace beh s k p = some []) ∧
    (((s.subsList k).map Wrapper.wid).Nodup →
      ∀ w ∈ s.subsList k, (Emitter.wlPairs (s.subsList k)).count (w.wid, w.lid) = 1) := by
  refine ⟨⟨_, emit_ok_shape beh s k p hk⟩, ?_, ?_⟩
  · intro h0
    rw [emitTrace_eq_wlPairs beh s k p hk, h0]
    rfl
  · intro hnd w hw
    have hfst : (Emitter.wlPairs (s.subsList k)).map Prod.fst =
        (s.subsList k).map Wrapper.wid := by
      simp [Emitter.wlPairs, List.map_map, Function.comp]
    have hpairs : (Emitter.wlPairs (s.subsList k)).Nodup :=
      List.Nodup.of_map Prod.fst (hfst ▸ hnd)
    exact count_one_of_mem_nodup hpairs
      (List.mem_map_of_mem (fun w => (w.wid, w.lid)) hw)

/-- C1, witness at the one-listener state reached by a single
subscription: the trace is exactly that listener once. -/
theorem emit_invokes_snapshot_once_in_order_witness :
    isEventName (.str 0) = true ∧
    ((∃ s2, Emitter.emit (fun _ _ st => st)
        ⟨[(0, [⟨0, .str 0, 0⟩])], [(.str 0, 0)], [(0, ⟨0, .str 0, 0⟩)], 1, 1, true, []⟩
        (.str 0) .undef =
        .ok (s2, Emitter.wlPairs
          ((⟨[(0, [⟨0, .str 0, 0⟩])], [(.str 0, 0)], [(0, ⟨0, .str 0, 0⟩)], 1, 1, true,
             []⟩ : Emitter).subsList (.str 0)))) ∧
     ((⟨[(0, [⟨0, .str 0, 0⟩])], [(.str 0, 0)], [(0, ⟨0, .str 0, 0⟩)], 1, 1, true,
         []⟩ : Emitter).subsList (.str 0) = [] →
       Emitter.emitTrace (fun _ _ st => st)
        ⟨[(0, [⟨0, .str 0, 0⟩])], [(.str 0, 0)], [(0, ⟨0, .str 0, 0⟩)], 1, 1, true, []⟩
        (.str 0) .undef = some []) ∧
     ((((⟨[(0, [⟨0, .str 0, 0⟩])], [(.str 0, 0)], [(0, ⟨0, .str 0, 0⟩)], 1, 1, true,
          []⟩ : Emitter).subsList (.str 0)).map Wrapper.wid).Nodup →
       ∀ w ∈ (⟨[(0, [⟨0, .str 0, 0⟩])], [(.str 0, 0)], [(0, ⟨0, .str 0, 0⟩)], 1, 1, true,
          []⟩ : Emitter).subsList (.str 0),
         (Emitter.wlPairs ((⟨[(0, [⟨0, .str 0, 0⟩])], [(.str 0, 0)],
            [(0, ⟨0, .str 0, 0⟩)], 1, 1, true, []⟩ : Emitter).subsList
              (.str 0))).count (w.wid, w.lid) = 1)) :=
  ⟨by decide,
   emit_invokes_snapshot_once_in_order (fun _ _ st => st)
     ⟨[(0, [⟨0, .str 0, 0⟩])], [(.str 0, 0)], [(0, ⟨0, .str 0, 0⟩)], 1, 1, true, []⟩
     (.str 0) .undef (by decide)⟩

/-- C2: the set of listeners invoked by `emit` is the snapshot of the
key's registration set taken before any listener runs: whatever the
listener bodies do to the emitter (subscribe, unsubscribe, anything),
the invocation trace equals the pre-call registration list, and so is
the same for any two listener-body assignments. -/
theorem emit_snapshot_fixed_before_dispatch (beh beh2 : Emitter.Beh) (s : Emitter)
    (k p : JsVal) (hk : isEventName k = true) :
    Emitter.emitTrace beh s k p = some (Emitter.wlPairs (s.subsList k)) ∧
    Emitter.emitTrace beh s k p = Emitter.emitTrace beh2 s k p :=
  ⟨emitTrace_eq_wlPairs beh s k p hk,
   (emitTrace_eq_wlPairs beh s k p hk).trans (emitTrace_eq_wlPairs beh2 s k p hk).symm⟩

/-- C2, witness: a passive listener body and a body that unsubscribes
the invoked listener from the key produce the same invocation trace at
the one-listener state. -/
theorem emit_snapshot_fixed_before_dispatch_witness :
    isEventName (.str 0) = true ∧
    (Emitter.emitTrace (fun _ _ st => st)
      ⟨[(0, [⟨0, .str 0, 0⟩])], [(.str 0, 0)], [(0, ⟨0, .str 0, 0⟩)], 1, 1, true, []⟩
      (.str 0) .undef =
      some (Emitter.wlPairs
        ((⟨[(0, [⟨0, .str 0, 0⟩])], [(.str 0, 0)], [(0, ⟨0, .str 0, 0⟩)], 1, 1, true,
           []⟩ : Emitter).subsList (.str 0))) ∧
     Emitter.emitTrace (fun _ _ st => st)
      ⟨[(0, [⟨0, .str 0, 0⟩])], [(.str 0, 0)], [(0, ⟨0, .str 0, 0⟩)], 1, 1, true, []⟩
      (.str 0) .undef =
      Emitter.emitTrace
        (fun lid _ st =>
          match Emitter.off st (.str 0) (.fnv lid) with
          | .ok (st2, _) => st2
          | .error (_, st2) => st2)
        ⟨[(0, [⟨0, .str 0, 0⟩])], [(.str 0, 0)], [(0, ⟨0, .str 0, 0⟩)], 1, 1, true, []⟩
        (.str 0) .undef) :=
  ⟨by decide,
   emit_snapshot_fixed_before_dispatch (fun _ _ st => st)
     (fun lid _ st =>
        match Emitter.off st (.str 0) (.fnv lid) with
        | .ok (st2, _) => st2
        | .error (_, st2) => st2)
     ⟨[(0, [⟨0, .str 0, 0⟩])], [(.str 0, 0)], [(0, ⟨0, .str 0, 0⟩)], 1, 1, true, []⟩
     (.str 0) .undef (by decide)⟩

/-! ### Claim theorems: removal sequences (C7, C9) -/

/-- C7, counterexample: subscribe a sole listener, remove it with the
direct `off` — which empties and prunes the key — and repeat the same
direct removal: the second attempt throws `unknownKey`, not
`unknownListener` as the claim states. -/
theorem second_direct_off_raises_unknown_key :
    Emitter.on' (mkEmitter none) (.str 0) (.fnv 0) =
      .ok (⟨[(0, [⟨0, .str 0, 0⟩])], [(.str 0, 0)], [(0, ⟨0, .str 0, 0⟩)], 1, 1, true,
            [(.subscribeTag, .str 0)]⟩,
           ⟨.str 0, 0, ⟨0, .str 0, 0⟩, 0⟩) ∧
    Emitter.off
        ⟨[(0, [⟨0, .str 0, 0⟩])], [(.str 0, 0)], [(0, ⟨0, .str 0, 0⟩)], 1, 1, true,
          [(.subscribeTag, .str 0)]⟩ (.str 0) (.fnv 0) =
      .ok (⟨[(0, [])], [], [], 1, 1, true,
            [(.subscribeTag, .str 0), (.unsubscribeTag, .str 0)]⟩, true) ∧
    Emitter.off
        ⟨[(0, [])], [], [], 1, 1, true,
          [(.subscribeTag, .str 0), (.unsubscribeTag, .str 0)]⟩ (.str 0) (.fnv 0) =
      .error (.unknownKey,
        ⟨[(0, [])], [], [], 1, 1, true,
          [(.subscribeTag, .str 0), (.unsubscribeTag, .str 0)]⟩) ∧
    (Err.unknownKey = Err.unknownListener → False) := by decide

/-- C7, amended: after subscribing a fresh listener under a valid key,
`hasListener` answers `true`; a token unsubscribe succeeds and a second
token unsubscribe returns `false` without changing the state; a direct
unsubscribe succeeds, and — because it emptied the set and removed the
key — a second identical direct unsubscribe throws `unknownKey` (it
throws `unknownListener` only when the key's entry still exists, e.g.
after a token unsubscribe, which does not prune). -/
theorem subscribe_then_remove_twice (k : JsVal) (lid : Nat)
    (hk : isEventName k = true) :
    ∃ s1 t, Emitter.on' (mkEmitter none) k (.fnv lid) = .ok (s1, t) ∧
      Emitter.hasListener s1 k (.fnv lid) = .ok true ∧
      (∃ s2, Emitter.tokenOff s1 t = .ok (s2, true) ∧
        Emitter.tokenOff s2 t = .ok (s2, false) ∧
        Emitter.off s2 k (.fnv lid) = .error (.unknownListener, s2)) ∧
      (∃ s3, Emitter.off s1 k (.fnv lid) = .ok (s3, true) ∧
        Emitter.off s3 k (.fnv lid) = .error (.unknownKey, s3)) := by
  refine ⟨⟨[(0, [⟨0, k, lid⟩])], [(k, 0)], [(lid, ⟨0, k, lid⟩)], 1, 1, true,
            [(.subscribeTag, k)]⟩,
          ⟨k, lid, ⟨0, k, lid⟩, 0⟩, ?_, ?_, ?_, ?_⟩
  · simp [Emitter.on', mkEmitter, alookup, setEntry, hupdate, setAdd, Emitter.log]
  · simp [Emitter.hasListener, hk, alookup]
  · refine ⟨⟨[(0, [])], [(k, 0)], [], 1, 1, true,
        [(.subscribeTag, k), (.unsubscribeTag, k)]⟩, ?_, ?_, ?_⟩
    · simp [Emitter.tokenOff, Emitter.hasListener, hk, alookup, hupdate, adelete,
        Emitter.log, List.erase_cons]
    · simp [Emitter.tokenOff, Emitter.hasListener, hk, alookup]
    · simp [Emitter.off, hk, alookup]
  · refine ⟨⟨[(0, [])], [], [], 1, 1, true,
        [(.subscribeTag, k), (.unsubscribeTag, k)]⟩, ?_, ?_⟩
    · simp [Emitter.off, hk, alookup, hupdate, adelete, Emitter.log, List.erase_cons]
    · simp [Emitter.off, hk, alookup]

/-- C7, witness at the string key `str 0` and listener `fnv 0`. -/
theorem subscribe_then_remove_twice_witness :
    isEventName (.str 0) = true ∧
    (∃ s1 t, Emitter.on' (mkEmitter none) (.str 0) (.fnv 0) = .ok (s1, t) ∧
      Emitter.hasListener s1 (.str 0) (.fnv 0) = .ok true ∧
      (∃ s2, Emitter.tokenOff s1 t = .ok (s2, true) ∧
        Emitter.tokenOff s2 t = .ok (s2, false) ∧
        Emitter.off s2 (.str 0) (.fnv 0) = .error (.unknownListener, s2)) ∧
      (∃ s3, Emitter.off s1 (.str 0) (.fnv 0) = .ok (s3, true) ∧
        Emitter.off s3 (.str 0) (.fnv 0) = .error (.unknownKey, s3))) :=
  ⟨by decide, subscribe_then_remove_twice (.str 0) 0 (by decide)⟩

/-- C9: subscribing the same listener twice under one key leaves two
distinct registrations — a publish invokes it twice — while the
auxiliary map records only the second wrapper; one direct unsubscribe
removes only that second registration, so a publish still invokes the
listener once, and a further direct unsubscribe throws
`unknownListener` although a registration for the listener remains. -/
theorem double_subscribe_single_off (k p : JsVal) (lid : Nat)
    (hk : isEventName k = true) :
    ∃ s1 t1 s2 t2,
      Emitter.on' (mkEmitter none) k (.fnv lid) = .ok (s1, t1) ∧
      Emitter.on' s1 k (.fnv lid) = .ok (s2, t2) ∧
      s2.subsList k = [⟨0, k, lid⟩, ⟨1, k, lid⟩] ∧
      alookup s2.listenersMap lid = some ⟨1, k, lid⟩ ∧
      (∃ s2e, Emitter.emit (fun _ _ st => st) s2 k p =
          .ok (s2e, [(0, lid), (1, lid)]) ∧
        (∃ s3, Emitter.off s2e k (.fnv lid) = .ok (s3, true) ∧
          s3.subsList k = [⟨0, k, lid⟩] ∧
          (∃ s3e, Emitter.emit (fun _ _ st => st) s3 k p = .ok (s3e, [(0, lid)]) ∧
            Emitter.off s3e k (.fnv lid) = .error (.unknownListener, s3e)))) := by
  refine ⟨⟨[(0, [⟨0, k, lid⟩])], [(k, 0)], [(lid, ⟨0, k, lid⟩)], 1, 1, true,
            [(.subscribeTag, k)]⟩, ⟨k, lid, ⟨0, k, lid⟩, 0⟩,
          ⟨[(0, [⟨0, k, lid⟩, ⟨1, k, lid⟩])], [(k, 0)], [(lid, ⟨1, k, lid⟩)], 2, 1, true,
            [(.subscribeTag, k), (.subscribeTag, k)]⟩, ⟨k, lid, ⟨1, k, lid⟩, 0⟩,
          ?_, ?_, ?_, ?_, ?_⟩
  · simp [Emitter.on', mkEmitter, alookup, setEntry, hupdate, setAdd, Emitter.log]
  · simp [Emitter.on', alookup, setEntry, hupdate, setAdd, Emitter.log]
  · simp [Emitter.subsList, alookup]
  · simp [alookup]
  · refine ⟨⟨[(0, [⟨0, k, lid⟩, ⟨1, k, lid⟩])], [(k, 0)], [(lid, ⟨1, k, lid⟩)], 2, 1, true,
        [(.subscribeTag, k), (.subscribeTag, k), (.emitTag, k),
         (.callListenerTag, k), (.callListenerTag, k)]⟩, ?_, ?_⟩
    · simp [Emitter.emit, hk, Emitter.subsList, alookup, Emitter.dispatch, Emitter.log]
    · refine ⟨⟨[(0, [⟨0, k, lid⟩])], [(k, 0)], [], 2, 1, true,
          [(.subscribeTag, k), (.subscribeTag, k), (.emitTag, k),
           (.callListenerTag, k), (.callListenerTag, k), (.unsubscribeTag, k)]⟩, ?_, ?_, ?_⟩
      · simp [Emitter.off, hk, alookup, hupdate, adelete, Emitter.log, List.erase_cons]
      · simp [Emitter.subsList, alookup]
      · refine ⟨⟨[(0, [⟨0, k, lid⟩])], [(k, 0)], [], 2, 1, true,
            [(.subscribeTag, k), (.subscribeTag, k), (.emitTag, k),
             (.callListenerTag, k), (.callListenerTag, k), (.unsubscribeTag, k),
             (.emitTag, k), (.callListenerTag, k)]⟩, ?_, ?_⟩
        · simp [Emitter.emit, hk, Emitter.subsList, alookup, Emitter.dispatch, Emitter.log]
        · simp [Emitter.off, hk, alookup]

/-- C9, witness at the string key `str 0`, payload `undef`, listener
`fnv 0`. -/
theorem double_subscribe_single_off_witness :
    isEventName (.str 0) = true ∧
    (∃ s1 t1 s2 t2,
      Emitter.on' (mkEmitter none) (.str 0) (.fnv 0) = .ok (s1, t1) ∧
      Emitter.on' s1 (.str 0) (.fnv 0) = .ok (s2, t2) ∧
      s2.subsList (.str 0) = [⟨0, .str 0, 0⟩, ⟨1, .str 0, 0⟩] ∧
      alookup s2.listenersMap 0 = some ⟨1, .str 0, 0⟩ ∧
      (∃ s2e, Emitter.emit (fun _ _ st => st) s2 (.str 0) .undef =
          .ok (s2e, [(0, 0), (1, 0)]) ∧
        (∃ s3, Emitter.off s2e (.str 0) (.fnv 0) = .ok (s3, true) ∧
          s3.subsList (.str 0) = [⟨0, .str 0, 0⟩] ∧
          (∃ s3e, Emitter.emit (fun _ _ st => st) s3 (.str 0) .undef =
              .ok (s3e, [(0, 0)]) ∧
            Emitter.off s3e (.str 0) (.fnv 0) = .error (.unknownListener, s3e))))) :=
  ⟨by decide, double_subscribe_single_off (.str 0) .undef 0 (by decide)⟩
